import Mathlib

/-!
Shallow embedding of the OrçaMais `DataManager` ledger/aggregation engine
(`src/core/DataManager.ts`, authoritative, and `src/core/DataManager.js`
where the two implementations differ), together with proofs about the
behaviours described in the specification.

JavaScript numbers are modelled by `JsNum`: `NaN`, the two infinities, and
finite values represented as rationals.  The operations used by the engine
(`+`, `-`, `*`, `/`, `>`, truthiness for `||`) are given their IEEE-style
JavaScript semantics on this carrier.  Platform built-ins with ambient
effects (`Date.now`, `new Date().toISOString()`, `Math.random`-based id
generation, `btoa`) are supplied through an explicit environment `JsEnv`;
the synchronous `localStorage` write (`saveData`) is modelled by a boolean
`saveOk` parameter giving the outcome of the persistence attempt, since the
engine updates memory first and merely reports that outcome.
-/

/-- JavaScript number semantics: NaN, +Infinity, -Infinity or a finite value
(modelled as a rational). -/
inductive JsNum : Type where
  | nan : JsNum
  | posInf : JsNum
  | negInf : JsNum
  | fin (q : ℚ) : JsNum
deriving DecidableEq

namespace JsNum

/-- JavaScript `+` on numbers. -/
def add : JsNum → JsNum → JsNum
  | nan, _ => nan
  | _, nan => nan
  | posInf, negInf => nan
  | negInf, posInf => nan
  | posInf, _ => posInf
  | _, posInf => posInf
  | negInf, _ => negInf
  | _, negInf => negInf
  | fin a, fin b => fin (a + b)

/-- JavaScript unary minus. -/
def neg : JsNum → JsNum
  | nan => nan
  | posInf => negInf
  | negInf => posInf
  | fin q => fin (-q)

/-- JavaScript binary `-`. -/
def sub (a b : JsNum) : JsNum := a.add b.neg

/-- JavaScript `*`. -/
def mul : JsNum → JsNum → JsNum
  | nan, _ => nan
  | _, nan => nan
  | posInf, posInf => posInf
  | posInf, negInf => negInf
  | negInf, posInf => negInf
  | negInf, negInf => posInf
  | posInf, fin q => if q = 0 then nan else if 0 < q then posInf else negInf
  | fin q, posInf => if q = 0 then nan else if 0 < q then posInf else negInf
  | negInf, fin q => if q = 0 then nan else if 0 < q then negInf else posInf
  | fin q, negInf => if q = 0 then nan else if 0 < q then negInf else posInf
  | fin a, fin b => fin (a * b)

/-- JavaScript `/` (division by zero yields an infinity or NaN, never an
exception; `0` stands for JavaScript's `+0`). -/
def div : JsNum → JsNum → JsNum
  | nan, _ => nan
  | _, nan => nan
  | posInf, posInf => nan
  | posInf, negInf => nan
  | negInf, posInf => nan
  | negInf, negInf => nan
  | posInf, fin q => if 0 ≤ q then posInf else negInf
  | negInf, fin q => if 0 ≤ q then negInf else posInf
  | fin _, posInf => fin 0
  | fin _, negInf => fin 0
  | fin a, fin b =>
      if b = 0 then (if a = 0 then nan else if 0 < a then posInf else negInf)
      else fin (a / b)

/-- JavaScript `>` comparison (false whenever either side is NaN). -/
def gt : JsNum → JsNum → Bool
  | nan, _ => false
  | _, nan => false
  | posInf, posInf => false
  | posInf, negInf => true
  | posInf, fin _ => true
  | negInf, _ => false
  | fin _, posInf => false
  | fin _, negInf => true
  | fin a, fin b => decide (b < a)

/-- JavaScript truthiness of a number: `0` and `NaN` are falsy. -/
def truthy : JsNum → Bool
  | nan => false
  | fin q => decide (q ≠ 0)
  | _ => true

end JsNum

/-- JavaScript `a || b` on numbers: yields `a` when truthy, else `b`. -/
def jsOr (a b : JsNum) : JsNum := if a.truthy then a else b

/-- JavaScript object indexing followed by `|| 0`, as in
`map[key] || 0`: an absent key (undefined) and falsy values give `0`. -/
def jsIndexOr0 (m : List (String × JsNum)) (k : String) : JsNum :=
  match List.lookup k m with
  | none => JsNum.fin 0
  | some v => jsOr v (JsNum.fin 0)

/-- JavaScript object property assignment `m[k] = v` on a string-keyed
object, modelled as an association list: an existing key is overwritten in
place, a new key is appended (JS objects preserve insertion order). -/
def setAssoc {β : Type} (m : List (String × β)) (k : String) (v : β) :
    List (String × β) :=
  match m with
  | [] => [(k, v)]
  | (k', v') :: rest =>
      if k' = k then (k, v) :: rest else (k', v') :: setAssoc rest k v

/-- Result of `s.substring(0, e)`: the first `e` characters of `s`. -/
def jsSubstring (s : String) (e : Nat) : String := String.mk (s.data.take e)

/-- Result of `s.startsWith(p)`. -/
def jsStartsWith (s p : String) : Bool := p.data.isPrefixOf s.data

/-- Character-level trimming used by `String.prototype.trim`: drop leading
and trailing whitespace. -/
def trimChars (l : List Char) : List Char :=
  ((l.dropWhile Char.isWhitespace).reverse.dropWhile Char.isWhitespace).reverse

/-- Result of `s.trim()`. -/
def jsTrim (s : String) : String := String.mk (trimChars s.data)

/-- Transaction record as built by `addTransaction`. -/
structure Transaction : Type where
  id : String
  description : String
  amount : JsNum
  type : String
  category : String
  date : String
  createdAt : String
deriving DecidableEq

/-- User profile block of a stored account. -/
structure UserProfile : Type where
  name : String
  email : String
  createdAt : String
  lastLogin : String
deriving DecidableEq

/-- Financial block of a stored account.  `goals` is an opaque `any[]`
never touched by the engine and is modelled as a list of units. -/
structure Financial : Type where
  monthlyIncomes : List (String × JsNum)
  transactions : List Transaction
  categories : List String
  goals : List Unit
deriving DecidableEq

/-- Settings bag of a stored account (opaque passthrough). -/
structure Settings : Type where
  currency : String
  theme : String
  notifications : Bool
deriving DecidableEq

/-- One stored account (`UserData` in the source). -/
structure UserData : Type where
  id : String
  profile : UserProfile
  financial : Financial
  settings : Settings
deriving DecidableEq

/-- The whole persisted application state (`AppData` in the source). -/
structure AppData : Type where
  users : List (String × UserData)
  currentUserId : Option String
  version : String
deriving DecidableEq

/-- The `this.currentUser` field.  The class keeps `currentUser` aliased to
`this.data.users[this.data.currentUserId]` (both are always assigned
together), so in the functional model it is the derived lookup. -/
def AppData.currentUser (st : AppData) : Option UserData :=
  match st.currentUserId with
  | none => none
  | some uid => List.lookup uid st.users

/-- Write back the (mutated) current user into the account table, modelling
the aliasing mutation `this.currentUser.financial... = ...`. -/
def AppData.withCurrentUser (st : AppData) (u' : UserData) : AppData :=
  match st.currentUserId with
  | none => st
  | some uid => { st with users := setAssoc st.users uid u' }

/-- Ambient platform built-ins consumed by the engine: timestamps, the
generated transaction id, and the account-id derivation
`btoa(email.toLowerCase()).replace(/[^a-zA-Z0-9]/g, '')`. -/
structure JsEnv : Type where
  nowISO : String
  todayISO : String
  freshTxId : String
  userIdOf : String → String

/-- Input record accepted by `addTransaction`.  `amountParsed` is the value
of `parseFloat(transactionData.amount)` — `NaN` exactly when the supplied
amount is unparsable.  `category` and `date` are optional and fall back to
defaults when absent or falsy (the empty string is falsy). -/
structure TxData : Type where
  description : String
  amountParsed : JsNum
  type : String
  category : Option String
  date : Option String

/-- JavaScript `x || d` for an optional string field: absent (undefined)
and empty strings fall back to the default. -/
def strOr (x : Option String) (d : String) : String :=
  match x with
  | none => d
  | some s => if s = "" then d else s

/-- The transaction record `addTransaction` constructs from its input. -/
def mkTransaction (env : JsEnv) (d : TxData) : Transaction :=
  { id := env.freshTxId
    description := d.description
    amount := d.amountParsed
    type := d.type
    category := strOr d.category "Outros"
    date := strOr d.date env.todayISO
    createdAt := env.nowISO }

/-- `getMonthlyIncome(yearMonth)` (TS lines 182–185). -/
def getMonthlyIncome (st : AppData) (yearMonth : String) : JsNum :=
  match st.currentUser with
  | none => JsNum.fin 0
  | some u => jsIndexOr0 u.financial.monthlyIncomes yearMonth

/-- `setMonthlyIncome(yearMonth, amount)` (TS lines 190–195): stores
`parseFloat(amount.toString()) || 0` and returns the persistence outcome.
`parseFloat` of a JS number's canonical string is that number again, so the
parse round-trip is the identity on `JsNum`. -/
def setMonthlyIncome (saveOk : Bool) (st : AppData) (yearMonth : String)
    (amount : JsNum) : Bool × AppData :=
  match st.currentUser with
  | none => (false, st)
  | some u =>
      let incomes' :=
        setAssoc u.financial.monthlyIncomes yearMonth (jsOr amount (JsNum.fin 0))
      let u' := { u with financial := { u.financial with monthlyIncomes := incomes' } }
      (saveOk, st.withCurrentUser u')

/-- `addTransaction(transactionData)` (TS lines 200–215): builds the record,
unshifts it onto the transaction list, then reports it on persistence
success and `false` (here `none`) on persistence failure. -/
def addTransaction (env : JsEnv) (saveOk : Bool) (st : AppData)
    (d : TxData) : Option Transaction × AppData :=
  match st.currentUser with
  | none => (none, st)
  | some u =>
      let tx := mkTransaction env d
      let txs' := tx :: u.financial.transactions
      let u' := { u with financial := { u.financial with transactions := txs' } }
      (if saveOk then some tx else none, st.withCurrentUser u')

/-- `removeTransaction(transactionId)` (TS lines 220–228): `findIndex` by
id, `false` when absent, else `splice` the single element out and persist. -/
def removeTransaction (saveOk : Bool) (st : AppData) (transactionId : String) :
    Bool × AppData :=
  match st.currentUser with
  | none => (false, st)
  | some u =>
      match u.financial.transactions.findIdx? (fun t => t.id == transactionId) with
      | none => (false, st)
      | some i =>
          let txs' := u.financial.transactions.eraseIdx i
          let u' := { u with financial := { u.financial with transactions := txs' } }
          (saveOk, st.withCurrentUser u')

/-- `getTransactionsByPeriod(yearMonth)` of the TypeScript implementation
(lines 233–246): trims the key and compares `date.substring(0, 7)` for
equality. -/
def getTransactionsByPeriod (st : AppData) (yearMonth : String) :
    List Transaction :=
  match st.currentUser with
  | none => []
  | some u =>
      let targetPeriod := jsTrim yearMonth
      u.financial.transactions.filter
        (fun t => jsSubstring t.date 7 == targetPeriod)

/-- `getTransactionsByPeriod(yearMonth)` of the JavaScript implementation
(DataManager.js lines 191–197): `date.startsWith(yearMonth)`. -/
def getTransactionsByPeriodJS (st : AppData) (yearMonth : String) :
    List Transaction :=
  match st.currentUser with
  | none => []
  | some u =>
      u.financial.transactions.filter (fun t => jsStartsWith t.date yearMonth)

/-- `getCategories()` (TS lines 336–339). -/
def getCategories (st : AppData) : List String :=
  match st.currentUser with
  | none => []
  | some u => u.financial.categories

/-- `getCurrentUser()` (TS lines 322–324). -/
def getCurrentUser (st : AppData) : Option UserData := st.currentUser

/-- `isLoggedIn()` (TS lines 329–331). -/
def isLoggedIn (st : AppData) : Bool := st.currentUser.isSome

/-- Running sum `transactions.reduce((sum, t) => sum + t.amount, 0)`. -/
def sumAmounts (l : List Transaction) : JsNum :=
  l.foldl (fun acc t => acc.add t.amount) (JsNum.fin 0)

/-- The `expensesByCategory` fold (TS lines 274–279):
`expensesByCategory[t.category] = (expensesByCategory[t.category] || 0) + t.amount`
over the expense transactions, starting from the empty object. -/
def foldCategories (l : List Transaction) (m : List (String × JsNum)) :
    List (String × JsNum) :=
  match l with
  | [] => m
  | t :: rest =>
      foldCategories rest
        (setAssoc m t.category ((jsIndexOr0 m t.category).add t.amount))

/-- Stable sort with a JavaScript comparator: element `b` is placed before
`a` exactly when `comparator(a, b) > 0`, and elements the comparator does
not strictly order keep their original relative order — the observable
behaviour ECMAScript requires of `Array.prototype.sort` for a consistent
comparator.  Realised by Mathlib's stable `insertionSort`. -/
def jsStableSort {α : Type} (c : α → α → JsNum) (l : List α) : List α :=
  List.insertionSort (fun a b => (c a b).gt (JsNum.fin 0) = false) l

/-- Derived summary object (TS lines 281–290). -/
structure Summary : Type where
  period : String
  monthlyIncome : JsNum
  totalIncome : JsNum
  totalExpenses : JsNum
  balance : JsNum
  transactionCount : Nat
  expensesByCategory : List (String × JsNum)
  transactions : List Transaction
deriving DecidableEq

/-- `getFinancialSummary(yearMonth)` of the TypeScript implementation
(lines 251–293).  `dateVal` models `s => new Date(s).getTime()`, the
number the sort comparator is built from. -/
def getFinancialSummary (dateVal : String → JsNum) (st : AppData)
    (yearMonth : String) : Option Summary :=
  match st.currentUser with
  | none => none
  | some _ =>
      let transactions := getTransactionsByPeriod st yearMonth
      let monthlyIncome := getMonthlyIncome st yearMonth
      let periodIncome :=
        sumAmounts (transactions.filter (fun t => t.type == "income"))
      let totalIncome := monthlyIncome.add periodIncome
      let totalExpenses :=
        sumAmounts (transactions.filter (fun t => t.type == "expense"))
      let balance := totalIncome.sub totalExpenses
      let expensesByCategory :=
        foldCategories (transactions.filter (fun t => t.type == "expense")) []
      some
        { period := yearMonth
          monthlyIncome := monthlyIncome
          totalIncome := totalIncome
          totalExpenses := totalExpenses
          balance := balance
          transactionCount := transactions.length
          expensesByCategory := expensesByCategory
          transactions :=
            jsStableSort
              (fun a b => (dateVal b.date).sub (dateVal a.date)) transactions }

/-- `getFinancialSummary(yearMonth)` of the JavaScript implementation
(DataManager.js lines 210–244): same totals (income summands in the other
order), but the returned transaction list is the raw period filter — no
sort is applied. -/
def getFinancialSummaryJS (st : AppData) (yearMonth : String) :
    Option Summary :=
  match st.currentUser with
  | none => none
  | some _ =>
      let transactions := getTransactionsByPeriodJS st yearMonth
      let monthlyIncome := getMonthlyIncome st yearMonth
      let totalIncome :=
        (sumAmounts (transactions.filter (fun t => t.type == "income"))).add
          monthlyIncome
      let totalExpenses :=
        sumAmounts (transactions.filter (fun t => t.type == "expense"))
      let balance := totalIncome.sub totalExpenses
      let expensesByCategory :=
        foldCategories (transactions.filter (fun t => t.type == "expense")) []
      some
        { period := yearMonth
          monthlyIncome := monthlyIncome
          totalIncome := totalIncome
          totalExpenses := totalExpenses
          balance := balance
          transactionCount := transactions.length
          expensesByCategory := expensesByCategory
          transactions := transactions }

/-- The delta block computed by `comparePeriods` (TS lines 304–316). -/
structure ComparisonDelta : Type where
  incomeChange : JsNum
  expenseChange : JsNum
  balanceChange : JsNum
  incomeChangePercent : JsNum
  expenseChangePercent : JsNum
deriving DecidableEq

/-- Result object of `comparePeriods`. -/
structure Comparison : Type where
  period1 : Summary
  period2 : Summary
  comparison : ComparisonDelta
deriving DecidableEq

/-- The comparison record `comparePeriods` builds from two summaries. -/
def mkComparison (s1 s2 : Summary) : Comparison :=
  { period1 := s1
    period2 := s2
    comparison :=
      { incomeChange := s2.totalIncome.sub s1.totalIncome
        expenseChange := s2.totalExpenses.sub s1.totalExpenses
        balanceChange := s2.balance.sub s1.balance
        incomeChangePercent :=
          if s1.totalIncome.gt (JsNum.fin 0) then
            (((s2.totalIncome.sub s1.totalIncome).div s1.totalIncome).mul
              (JsNum.fin 100))
          else JsNum.fin 0
        expenseChangePercent :=
          if s1.totalExpenses.gt (JsNum.fin 0) then
            (((s2.totalExpenses.sub s1.totalExpenses).div s1.totalExpenses).mul
              (JsNum.fin 100))
          else JsNum.fin 0 } }

/-- `comparePeriods(period1, period2)` (TS lines 298–317). -/
def comparePeriods (dateVal : String → JsNum) (st : AppData)
    (period1 period2 : String) : Option Comparison :=
  match getFinancialSummary dateVal st period1,
        getFinancialSummary dateVal st period2 with
  | some s1, some s2 => some (mkComparison s1 s2)
  | _, _ => none

/-- Input record accepted by `registerUser`. -/
structure RegData : Type where
  name : String
  email : String

/-- Result record of `registerUser` / `loginUser`. -/
structure AuthResult : Type where
  success : Bool
  user : Option UserData
  message : Option String
deriving DecidableEq

/-- `createUserStructure(userId, userData)` (TS lines 90–114). -/
def createUserStructure (env : JsEnv) (userId : String) (userData : RegData) :
    UserData :=
  { id := userId
    profile :=
      { name := userData.name
        email := userData.email
        createdAt := env.nowISO
        lastLogin := env.nowISO }
    financial :=
      { monthlyIncomes := []
        transactions := []
        categories :=
          ["Alimentação", "Transporte", "Moradia", "Saúde",
           "Educação", "Lazer", "Compras", "Outros"]
        goals := [] }
    settings :=
      { currency := "BRL", theme := "light", notifications := true } }

/-- `registerUser(userData)` (TS lines 119–135): duplicate-id check, create
and activate the account, persist, and report. -/
def registerUser (env : JsEnv) (saveOk : Bool) (st : AppData)
    (userData : RegData) : AuthResult × AppData :=
  let userId := env.userIdOf userData.email
  match List.lookup userId st.users with
  | some _ => ({ success := false, user := none,
                 message := some "Usuário já existe" }, st)
  | none =>
      let newUser := createUserStructure env userId userData
      let st' : AppData :=
        { users := setAssoc st.users userId newUser
          currentUserId := some userId
          version := st.version }
      if saveOk then
        ({ success := true, user := some newUser, message := none }, st')
      else
        ({ success := false, user := none,
           message := some "Erro ao salvar dados" }, st')

/-! ### Helper lemmas about the state model -/

theorem lookup_setAssoc_self {β : Type} (m : List (String × β)) (k : String) (v : β) :
    List.lookup k (setAssoc m k v) = some v := by
  induction m with
  | nil => simp [setAssoc, List.lookup]
  | cons p t ih =>
      obtain ⟨k', v'⟩ := p
      by_cases hk : k' = k
      · subst hk; simp [setAssoc, List.lookup]
      · simp [setAssoc, hk, List.lookup, ih, beq_eq_false_iff_ne.mpr (Ne.symm hk)]

theorem lookup_setAssoc_ne {β : Type} (m : List (String × β)) (k k' : String) (v : β)
    (h : k' ≠ k) : List.lookup k' (setAssoc m k v) = List.lookup k' m := by
  induction m with
  | nil => simp [setAssoc, List.lookup, beq_eq_false_iff_ne.mpr h]
  | cons p t ih =>
      obtain ⟨k0, v0⟩ := p
      by_cases hk : k0 = k
      · subst hk
        simp [setAssoc, List.lookup, beq_eq_false_iff_ne.mpr h]
      · simp only [setAssoc, if_neg hk]
        cases hb : (k' == k0) <;> simp [List.lookup, hb, ih]

theorem currentUser_withCurrentUser (st : AppData) (u u' : UserData)
    (h : st.currentUser = some u) :
    (st.withCurrentUser u').currentUser = some u' := by
  rcases hid : st.currentUserId with _ | uid
  · simp [AppData.currentUser, hid] at h
  · simp [AppData.currentUser, AppData.withCurrentUser, hid, lookup_setAssoc_self]

/-! ### Concrete fixtures used by witnesses and counterexamples -/

/-- Fixed environment standing for one instant of the platform clock. -/
def envW : JsEnv :=
  { nowISO := "2024-01-31T12:00:00.000Z"
    todayISO := "2024-01-31"
    freshTxId := "tx-1"
    userIdOf := fun e => e }

/-- The same platform a moment later, with a fresh transaction id. -/
def envW2 : JsEnv :=
  { nowISO := "2024-01-31T12:00:01.000Z"
    todayISO := "2024-01-31"
    freshTxId := "tx-2"
    userIdOf := fun e => e }

/-- Account fixture holding the given transactions and income map. -/
def mkUserW (txs : List Transaction) (incomes : List (String × JsNum)) : UserData :=
  { id := "u1"
    profile := { name := "User", email := "a@b.com", createdAt := "t0", lastLogin := "t0" }
    financial := { monthlyIncomes := incomes, transactions := txs,
                   categories := ["Outros"], goals := [] }
    settings := { currency := "BRL", theme := "light", notifications := true } }

/-- Application state with the fixture account active. -/
def stWith (txs : List Transaction) (incomes : List (String × JsNum)) : AppData :=
  { users := [("u1", mkUserW txs incomes)]
    currentUserId := some "u1"
    version := "2.0.0" }

/-- Application state with no active account. -/
def stLoggedOut : AppData :=
  { users := [], currentUserId := none, version := "2.0.0" }

/-- Expense fixtures matching the spec's category-fold example, plus one
income transaction. -/
def txFood10 : Transaction :=
  { id := "t1", description := "Food A", amount := JsNum.fin 10, type := "expense",
    category := "Food", date := "2024-01-10", createdAt := "t0" }

def txFood5 : Transaction :=
  { id := "t2", description := "Food B", amount := JsNum.fin 5, type := "expense",
    category := "Food", date := "2024-01-12", createdAt := "t0" }

def txFuel20 : Transaction :=
  { id := "t3", description := "Fuel", amount := JsNum.fin 20, type := "expense",
    category := "Fuel", date := "2024-01-15", createdAt := "t0" }

def txInc300 : Transaction :=
  { id := "t4", description := "Freelance", amount := JsNum.fin 300, type := "income",
    category := "Outros", date := "2024-01-20", createdAt := "t0" }

/-! ### C9 — no-account defaults -/

/-- C9: whenever no account is active, every read accessor returns its
empty/zero/null default: `getMonthlyIncome` returns 0, `getCategories` and
both implementations of `getTransactionsByPeriod` return the empty list,
both implementations of `getFinancialSummary` return null, and
`comparePeriods` returns null.  All are total functions, so none throws. -/
theorem c9_no_account_defaults (dateVal : String → JsNum) (st : AppData)
    (p p1 p2 : String) (h : st.currentUser = none) :
    getMonthlyIncome st p = JsNum.fin 0 ∧
    getCategories st = [] ∧
    getTransactionsByPeriod st p = [] ∧
    getTransactionsByPeriodJS st p = [] ∧
    getFinancialSummary dateVal st p = none ∧
    getFinancialSummaryJS st p = none ∧
    comparePeriods dateVal st p1 p2 = none := by
  simp [getMonthlyIncome, getCategories, getTransactionsByPeriod,
    getTransactionsByPeriodJS, getFinancialSummary, getFinancialSummaryJS,
    comparePeriods, h]

/-- Witness for C9 at the concrete logged-out state. -/
theorem c9_witness :
    getMonthlyIncome stLoggedOut "2024-01" = JsNum.fin 0 ∧
    getCategories stLoggedOut = [] ∧
    getTransactionsByPeriod stLoggedOut "2024-01" = [] ∧
    getTransactionsByPeriodJS stLoggedOut "2024-01" = [] ∧
    getFinancialSummary (fun _ => JsNum.fin 0) stLoggedOut "2024-01" = none ∧
    getFinancialSummaryJS stLoggedOut "2024-01" = none ∧
    comparePeriods (fun _ => JsNum.fin 0) stLoggedOut "2024-01" "2024-02" = none :=
  c9_no_account_defaults (fun _ => JsNum.fin 0) stLoggedOut
    "2024-01" "2024-01" "2024-02" (by rfl)

/-- Evaluation helper: the fixture state's current user. -/
theorem currentUser_stWith (txs : List Transaction) (incomes : List (String × JsNum)) :
    (stWith txs incomes).currentUser = some (mkUserW txs incomes) := by
  simp [stWith, AppData.currentUser, List.lookup]

/-! ### C7 — zero-baseline percentages -/

/-- C7: whenever both periods produce summaries (an account is active),
`comparePeriods` returns the comparison of those summaries, and when the
baseline summary's `totalIncome` is 0 the `incomeChangePercent` is exactly
the number 0 (never NaN or Infinity); likewise `expenseChangePercent` is 0
when the baseline `totalExpenses` is 0. -/
theorem c7_zero_baseline (dateVal : String → JsNum) (st : AppData)
    (p1 p2 : String) (s1 s2 : Summary)
    (h1 : getFinancialSummary dateVal st p1 = some s1)
    (h2 : getFinancialSummary dateVal st p2 = some s2) :
    comparePeriods dateVal st p1 p2 = some (mkComparison s1 s2) ∧
    (s1.totalIncome = JsNum.fin 0 →
      (mkComparison s1 s2).comparison.incomeChangePercent = JsNum.fin 0) ∧
    (s1.totalExpenses = JsNum.fin 0 →
      (mkComparison s1 s2).comparison.expenseChangePercent = JsNum.fin 0) := by
  refine ⟨by simp [comparePeriods, h1, h2], ?_, ?_⟩
  · intro h0
    simp [mkComparison, h0, JsNum.gt]
  · intro h0
    simp [mkComparison, h0, JsNum.gt]

/-- Witness for C7: an active account with no records at all has baseline
totals 0 in both periods, and the percentages come out as exactly 0. -/
theorem c7_witness :
    comparePeriods (fun _ => JsNum.fin 0) (stWith [] []) "2024-01" "2024-02" =
      some (mkComparison
        (Summary.mk "2024-01" (JsNum.fin 0) (JsNum.fin 0) (JsNum.fin 0)
          (JsNum.fin 0) 0 [] [])
        (Summary.mk "2024-02" (JsNum.fin 0) (JsNum.fin 0) (JsNum.fin 0)
          (JsNum.fin 0) 0 [] [])) ∧
    (mkComparison
        (Summary.mk "2024-01" (JsNum.fin 0) (JsNum.fin 0) (JsNum.fin 0)
          (JsNum.fin 0) 0 [] [])
        (Summary.mk "2024-02" (JsNum.fin 0) (JsNum.fin 0) (JsNum.fin 0)
          (JsNum.fin 0) 0 [] [])).comparison.incomeChangePercent = JsNum.fin 0 ∧
    (mkComparison
        (Summary.mk "2024-01" (JsNum.fin 0) (JsNum.fin 0) (JsNum.fin 0)
          (JsNum.fin 0) 0 [] [])
        (Summary.mk "2024-02" (JsNum.fin 0) (JsNum.fin 0) (JsNum.fin 0)
          (JsNum.fin 0) 0 [] [])).comparison.expenseChangePercent = JsNum.fin 0 := by
  have h := c7_zero_baseline (fun _ => JsNum.fin 0) (stWith [] []) "2024-01" "2024-02"
    (Summary.mk "2024-01" (JsNum.fin 0) (JsNum.fin 0) (JsNum.fin 0)
      (JsNum.fin 0) 0 [] [])
    (Summary.mk "2024-02" (JsNum.fin 0) (JsNum.fin 0) (JsNum.fin 0)
      (JsNum.fin 0) 0 [] []) (by norm_num [getFinancialSummary, currentUser_stWith, getTransactionsByPeriod,
      getMonthlyIncome, mkUserW, sumAmounts, foldCategories, jsStableSort,
      jsIndexOr0, jsOr, JsNum.add, JsNum.sub, JsNum.neg, List.lookup, jsTrim,
      trimChars, jsSubstring]) (by norm_num [getFinancialSummary, currentUser_stWith, getTransactionsByPeriod,
      getMonthlyIncome, mkUserW, sumAmounts, foldCategories, jsStableSort,
      jsIndexOr0, jsOr, JsNum.add, JsNum.sub, JsNum.neg, List.lookup, jsTrim,
      trimChars, jsSubstring])
  exact ⟨h.1, h.2.1 (by rfl), h.2.2 (by rfl)⟩

/-! ### C1 — addTransaction and unparsable amounts -/

/-- C1 counterexample: with an active account, calling `addTransaction` on
an input whose amount is unparsable (`parseFloat` gives NaN) does not
reject the transaction and does not normalize the amount to 0: the call
returns the created record, and the stored transaction sequence now
contains a transaction whose amount is NaN. -/
theorem c1_counterexample :
    (addTransaction envW true (stWith [] [])
        { description := "x", amountParsed := JsNum.nan, type := "expense",
          category := none, date := none }).1 =
      some (mkTransaction envW
        { description := "x", amountParsed := JsNum.nan, type := "expense",
          category := none, date := none }) ∧
    ((addTransaction envW true (stWith [] [])
        { description := "x", amountParsed := JsNum.nan, type := "expense",
          category := none, date := none }).2.currentUser).map
        (fun u => u.financial.transactions.map (fun t => t.amount)) =
      some [JsNum.nan] ∧
    JsNum.nan ≠ JsNum.fin 0 := by
  refine ⟨by rfl, ?_, by decide⟩
  simp [addTransaction, currentUser_stWith, mkUserW,
    currentUser_withCurrentUser _ (mkUserW [] []) _ (currentUser_stWith [] []),
    mkTransaction, strOr]

/-- C1 amended: `addTransaction` performs no validation of description or
amount; with an active account it always constructs and stores the record,
and when the amount is unparsable (NaN) the stored head transaction has
amount NaN.  The call reports the created record whenever persistence
succeeds. -/
theorem c1_amended_nan_stored (env : JsEnv) (saveOk : Bool) (st : AppData)
    (u : UserData) (d : TxData) (hu : st.currentUser = some u)
    (hnan : d.amountParsed = JsNum.nan) :
    ∃ u', (addTransaction env saveOk st d).2.currentUser = some u' ∧
      u'.financial.transactions =
        mkTransaction env d :: u.financial.transactions ∧
      (mkTransaction env d).amount = JsNum.nan ∧
      (saveOk = true →
        (addTransaction env saveOk st d).1 = some (mkTransaction env d)) := by
  refine ⟨{ u with financial := { u.financial with transactions := mkTransaction env d :: u.financial.transactions } }, ?_, by rfl, ?_, ?_⟩
  · simp only [addTransaction, hu]
    exact currentUser_withCurrentUser st u _ hu
  · simp [mkTransaction, hnan]
  · intro hs
    simp [addTransaction, hu, hs]

/-- Witness for the amended C1 at a concrete state and NaN input. -/
theorem c1_amended_witness :
    ∃ u', (addTransaction envW true (stWith [] [])
        { description := "x", amountParsed := JsNum.nan, type := "expense",
          category := none, date := none }).2.currentUser = some u' ∧
      u'.financial.transactions =
        mkTransaction envW
          { description := "x", amountParsed := JsNum.nan, type := "expense",
            category := none, date := none } :: (mkUserW [] []).financial.transactions ∧
      (mkTransaction envW
        { description := "x", amountParsed := JsNum.nan, type := "expense",
          category := none, date := none }).amount = JsNum.nan ∧
      (true = true →
        (addTransaction envW true (stWith [] [])
          { description := "x", amountParsed := JsNum.nan, type := "expense",
            category := none, date := none }).1 =
          some (mkTransaction envW
            { description := "x", amountParsed := JsNum.nan, type := "expense",
              category := none, date := none })) :=
  c1_amended_nan_stored envW true (stWith [] []) (mkUserW [] [])
    { description := "x", amountParsed := JsNum.nan, type := "expense",
      category := none, date := none } (currentUser_stWith [] []) (by rfl)

/-! ### C3 — setMonthlyIncome normalization -/

/-- C3 counterexample: `setMonthlyIncome` does not coerce a negative input
to 0 — storing `-5` leaves `-5` (a negative value) in the monthly-income
map, refuting the claim that every invalid (negative) input is stored as a
finite non-negative decimal 0. -/
theorem c3_counterexample :
    ((setMonthlyIncome true (stWith [] []) "2024-01" (JsNum.fin (-5))).2.currentUser).map
        (fun u => List.lookup "2024-01" u.financial.monthlyIncomes) =
      some (some (JsNum.fin (-5))) ∧
    (-5 : ℚ) < 0 := by
  constructor
  · simp [setMonthlyIncome, currentUser_stWith, mkUserW,
      currentUser_withCurrentUser _ (mkUserW [] []) _ (currentUser_stWith [] []),
      setAssoc, List.lookup, jsOr, JsNum.truthy]
  · norm_num

/-- C3 amended: with an active account, `setMonthlyIncome(period, amount)`
stores `parseFloat(amount) || 0` under the period key and returns the
persistence outcome: an unparsable amount (NaN) is coerced to 0, but any
finite value — including a negative one — is stored unchanged. -/
theorem c3_amended_store (saveOk : Bool) (st : AppData) (u : UserData)
    (p : String) (a : JsNum) (hu : st.currentUser = some u) :
    ∃ u', (setMonthlyIncome saveOk st p a).2.currentUser = some u' ∧
      List.lookup p u'.financial.monthlyIncomes = some (jsOr a (JsNum.fin 0)) ∧
      (setMonthlyIncome saveOk st p a).1 = saveOk ∧
      (a = JsNum.nan → jsOr a (JsNum.fin 0) = JsNum.fin 0) ∧
      (∀ q : ℚ, a = JsNum.fin q → jsOr a (JsNum.fin 0) = JsNum.fin q) := by
  refine ⟨{ u with financial := { u.financial with monthlyIncomes := setAssoc u.financial.monthlyIncomes p (jsOr a (JsNum.fin 0)) } }, ?_, ?_, ?_, ?_, ?_⟩
  · simp only [setMonthlyIncome, hu]
    exact currentUser_withCurrentUser st u _ hu
  · exact lookup_setAssoc_self _ _ _
  · simp [setMonthlyIncome, hu]
  · intro h; subst h; rfl
  · intro q h
    subst h
    by_cases hq : q = 0
    · subst hq; rfl
    · simp [jsOr, JsNum.truthy, hq]

/-- Witness for the amended C3 at a concrete state and a negative amount. -/
theorem c3_amended_witness :
    ∃ u', (setMonthlyIncome true (stWith [] []) "2024-01" (JsNum.fin (-5))).2.currentUser = some u' ∧
      List.lookup "2024-01" u'.financial.monthlyIncomes =
        some (jsOr (JsNum.fin (-5)) (JsNum.fin 0)) ∧
      (setMonthlyIncome true (stWith [] []) "2024-01" (JsNum.fin (-5))).1 = true ∧
      (JsNum.fin (-5) = JsNum.nan → jsOr (JsNum.fin (-5)) (JsNum.fin 0) = JsNum.fin 0) ∧
      (∀ q : ℚ, JsNum.fin (-5) = JsNum.fin q →
        jsOr (JsNum.fin (-5)) (JsNum.fin 0) = JsNum.fin q) :=
  c3_amended_store true (stWith [] []) (mkUserW [] []) "2024-01" (JsNum.fin (-5))
    (currentUser_stWith [] [])

/-! ### C5 — insertion at the front -/

/-- C5: with an active account, after a successful `addTransaction(A)`
followed by a successful `addTransaction(B)`, the raw stored transaction
sequence is exactly the record created for B, then the record created for
A, then the previous sequence unchanged — every successful insertion goes
at the front. -/
theorem c5_insert_front (env1 env2 : JsEnv) (ok1 ok2 : Bool)
    (st st1 st2 : AppData) (u : UserData) (dA dB : TxData)
    (recA recB : Transaction) (hu : st.currentUser = some u)
    (h1 : addTransaction env1 ok1 st dA = (some recA, st1))
    (h2 : addTransaction env2 ok2 st1 dB = (some recB, st2)) :
    ∃ u2, st2.currentUser = some u2 ∧
      u2.financial.transactions = recB :: recA :: u.financial.transactions := by
  simp only [addTransaction, hu] at h1
  cases ok1 with
  | false => simp at h1
  | true =>
      simp only [if_true, Prod.mk.injEq, Option.some.injEq, reduceIte] at h1
      obtain ⟨hA, hst1⟩ := h1
      subst hst1
      have hu1 := currentUser_withCurrentUser st u
        { u with financial := { u.financial with transactions := mkTransaction env1 dA :: u.financial.transactions } } hu
      simp only [addTransaction, hu1] at h2
      cases ok2 with
      | false => simp at h2
      | true =>
          simp only [if_true, Prod.mk.injEq, Option.some.injEq, reduceIte] at h2
          obtain ⟨hB, hst2⟩ := h2
          subst hst2
          refine ⟨_, currentUser_withCurrentUser _ _ _ hu1, ?_⟩
          simp [← hA, ← hB]

/-- Witness for C5: adding two concrete transactions to the empty fixture
account stores them most-recent-first. -/
theorem c5_witness :
    ∃ u2, ((addTransaction envW2 true
        ((addTransaction envW true (stWith [] [])
          { description := "A", amountParsed := JsNum.fin 10, type := "expense",
            category := none, date := some "2024-01-10" }).2)
        { description := "B", amountParsed := JsNum.fin 20, type := "income",
          category := none, date := some "2024-01-20" }).2).currentUser = some u2 ∧
      u2.financial.transactions =
        mkTransaction envW2
          { description := "B", amountParsed := JsNum.fin 20, type := "income",
            category := none, date := some "2024-01-20" } ::
        mkTransaction envW
          { description := "A", amountParsed := JsNum.fin 10, type := "expense",
            category := none, date := some "2024-01-10" } ::
        (mkUserW [] []).financial.transactions := by
  refine c5_insert_front envW envW2 true true (stWith [] []) _ _ (mkUserW [] [])
    _ _ _ _ (currentUser_stWith [] []) rfl rfl

/-! ### C6 — removeTransaction -/

theorem findIdx?_append_first {α : Type} (p : α → Bool) (pre post : List α) (t : α)
    (hp : ∀ x ∈ pre, p x = false) (ht : p t = true) :
    (pre ++ t :: post).findIdx? p = some pre.length := by
  induction pre with
  | nil => simp [List.findIdx?_cons, ht]
  | cons a l ih =>
      have ha := hp a (by simp)
      simp [List.findIdx?_cons, ha, ih (fun x hx => hp x (by simp [hx]))]

theorem eraseIdx_append_middle {α : Type} (pre post : List α) (t : α) :
    (pre ++ t :: post).eraseIdx pre.length = pre ++ post := by
  induction pre with
  | nil => rfl
  | cons a l ih => simpa [List.eraseIdx] using ih

/-- C6: with an active account, `removeTransaction(id)` on an id not
present among the stored transactions returns `false` (a failure value,
not an exception — the function is total) and leaves the whole state
unchanged; on the id of a stored transaction it removes exactly that
transaction and reports the persistence outcome. -/
theorem c6_remove (saveOk : Bool) (st : AppData) (u : UserData) (tid : String)
    (hu : st.currentUser = some u) :
    ((∀ t ∈ u.financial.transactions, t.id ≠ tid) →
      removeTransaction saveOk st tid = (false, st)) ∧
    (∀ pre t post, u.financial.transactions = pre ++ t :: post →
      t.id = tid → (∀ t' ∈ pre, t'.id ≠ tid) →
      ∃ u', (removeTransaction saveOk st tid).1 = saveOk ∧
        (removeTransaction saveOk st tid).2.currentUser = some u' ∧
        u'.financial.transactions = pre ++ post) := by
  constructor
  · intro habs
    have hnone : u.financial.transactions.findIdx? (fun t => t.id == tid) = none := by
      rw [List.findIdx?_eq_none_iff]
      intro x hx
      simpa using habs x hx
    simp [removeTransaction, hu, hnone]
  · intro pre t post hsplit hid hpre
    have hfind : u.financial.transactions.findIdx? (fun t => t.id == tid) =
        some pre.length := by
      rw [hsplit]
      refine findIdx?_append_first _ pre post t ?_ (by simp [hid])
      intro x hx
      simpa using hpre x hx
    have herase : u.financial.transactions.eraseIdx pre.length = pre ++ post := by
      rw [hsplit]
      exact eraseIdx_append_middle pre post t
    refine ⟨{ u with financial := { u.financial with transactions := u.financial.transactions.eraseIdx pre.length } }, by simp [removeTransaction, hu, hfind], ?_, ?_⟩
    · simp only [removeTransaction, hu, hfind]
      exact currentUser_withCurrentUser st u _ hu
    · simp [herase]

/-- Witness for C6: in a fixture holding `[txFood10, txFuel20]`, removing
the id `"t3"` of `txFuel20` succeeds and leaves `[txFood10]`, and removing
the absent id `"zzz"` returns `false` and changes nothing. -/
theorem c6_witness :
    removeTransaction true (stWith [txFood10, txFuel20] []) "zzz" =
      (false, stWith [txFood10, txFuel20] []) ∧
    ∃ u', (removeTransaction true (stWith [txFood10, txFuel20] []) "t3").1 = true ∧
      (removeTransaction true (stWith [txFood10, txFuel20] []) "t3").2.currentUser = some u' ∧
      u'.financial.transactions = [txFood10] ++ [] := by
  have h := c6_remove true (stWith [txFood10, txFuel20] [])
    (mkUserW [txFood10, txFuel20] []) "zzz" (currentUser_stWith _ _)
  have h2 := c6_remove true (stWith [txFood10, txFuel20] [])
    (mkUserW [txFood10, txFuel20] []) "t3" (currentUser_stWith _ _)
  refine ⟨h.1 (by decide), h2.2 [txFood10] txFuel20 [] (by rfl) (by rfl) (by decide)⟩

/-! ### C10 — registration activates the session -/

/-- C10: when no account with the email's derived id exists, a successful
`registerUser` call activates the newly created account: afterwards
`isLoggedIn()` is true and `getCurrentUser()` returns exactly the record
`createUserStructure` built for that id, which is also the record reported
in the result. -/
theorem c10_register_activates (env : JsEnv) (saveOk : Bool) (st : AppData)
    (d : RegData) (res : AuthResult) (st' : AppData)
    (hfresh : List.lookup (env.userIdOf d.email) st.users = none)
    (hreg : registerUser env saveOk st d = (res, st'))
    (hsucc : res.success = true) :
    isLoggedIn st' = true ∧
    getCurrentUser st' = some (createUserStructure env (env.userIdOf d.email) d) ∧
    res.user = some (createUserStructure env (env.userIdOf d.email) d) := by
  simp only [registerUser, hfresh] at hreg
  cases saveOk with
  | false =>
      simp only [Bool.false_eq_true, reduceIte, Prod.mk.injEq] at hreg
      rw [← hreg.1] at hsucc
      simp at hsucc
  | true =>
      simp only [reduceIte, Prod.mk.injEq] at hreg
      obtain ⟨hres, hst⟩ := hreg
      subst hst
      have hcu : (AppData.mk (setAssoc st.users (env.userIdOf d.email)
          (createUserStructure env (env.userIdOf d.email) d))
          (some (env.userIdOf d.email)) st.version).currentUser =
          some (createUserStructure env (env.userIdOf d.email) d) := by
        simp [AppData.currentUser, lookup_setAssoc_self]
      refine ⟨?_, ?_, ?_⟩
      · simp [isLoggedIn, hcu]
      · simpa [getCurrentUser] using hcu
      · rw [← hres]

/-- Witness for C10: registering a fresh email on the empty state logs the
new account in. -/
theorem c10_witness :
    isLoggedIn (registerUser envW true stLoggedOut
      { name := "User", email := "a@b.com" }).2 = true ∧
    getCurrentUser (registerUser envW true stLoggedOut
        { name := "User", email := "a@b.com" }).2 =
      some (createUserStructure envW (envW.userIdOf "a@b.com")
        { name := "User", email := "a@b.com" }) ∧
    (registerUser envW true stLoggedOut
        { name := "User", email := "a@b.com" }).1.user =
      some (createUserStructure envW (envW.userIdOf "a@b.com")
        { name := "User", email := "a@b.com" }) :=
  c10_register_activates envW true stLoggedOut { name := "User", email := "a@b.com" }
    (registerUser envW true stLoggedOut { name := "User", email := "a@b.com" }).1
    (registerUser envW true stLoggedOut { name := "User", email := "a@b.com" }).2
    (by rfl) (by rfl) (by rfl)

/-! ### C4 — period filtering, TS vs JS -/

/-- `getAllTransactions()` (DataManager.js lines 202–205): the raw stored
transaction sequence of the active account, empty when none is active. -/
def getAllTransactions (st : AppData) : List Transaction :=
  match st.currentUser with
  | none => []
  | some u => u.financial.transactions

/-- Specification predicate: a 7-character period key of the shape
`YYYY-MM` (four digits, a dash, two digits). -/
def isPeriodKey (s : String) : Bool :=
  match s.data with
  | [y1, y2, y3, y4, dash, m1, m2] =>
      y1.isDigit && y2.isDigit && y3.isDigit && y4.isDigit &&
      (dash == '-') && m1.isDigit && m2.isDigit
  | _ => false

theorem char_isDigit_not_ws (c : Char) (h : c.isDigit = true) :
    c.isWhitespace = false := by
  simp [Char.isDigit, Char.isWhitespace] at *
  obtain ⟨h1, h2⟩ := h
  refine ⟨⟨⟨?_, ?_⟩, ?_⟩, ?_⟩ <;> · rintro rfl; exact absurd h1 (by decide)

theorem jsTrim_periodKey (k : String) (hk : isPeriodKey k = true) : jsTrim k = k := by
  rcases hd : k.data with _ | ⟨a, _ | ⟨b, _ | ⟨c, _ | ⟨d, _ | ⟨e, _ | ⟨f, _ | ⟨g, _ | t⟩⟩⟩⟩⟩⟩⟩ <;>
    simp [isPeriodKey, hd] at hk
  obtain ⟨⟨⟨⟨⟨⟨ha, hb⟩, hc⟩, hdd⟩, he⟩, hf⟩, hg⟩ := hk
  have : trimChars k.data = k.data := by
    rw [hd]
    simp [trimChars, List.dropWhile, char_isDigit_not_ws _ ha, char_isDigit_not_ws _ hg]
  have hmk : String.mk (trimChars k.data) = String.mk k.data := by rw [this]
  simpa [jsTrim] using hmk

theorem isPeriodKey_length (k : String) (hk : isPeriodKey k = true) :
    k.data.length = 7 := by
  rcases hd : k.data with _ | ⟨a, _ | ⟨b, _ | ⟨c, _ | ⟨d, _ | ⟨e, _ | ⟨f, _ | ⟨g, _ | t⟩⟩⟩⟩⟩⟩⟩ <;>
    simp [isPeriodKey, hd] at hk
  simp [hd]

/-- C4: for any 7-character `YYYY-MM` period key, both implementations of
`getTransactionsByPeriod` select exactly the stored transactions whose
date string's leading 7 characters equal the key, in the stored order —
in particular the TypeScript `substring(0, 7)` equality version and the
JavaScript `startsWith` version agree. -/
theorem c4_period_filter_equiv (st : AppData) (k : String)
    (hk : isPeriodKey k = true) :
    getTransactionsByPeriod st k =
      (getAllTransactions st).filter (fun t => decide (t.date.data.take 7 = k.data)) ∧
    getTransactionsByPeriodJS st k =
      (getAllTransactions st).filter (fun t => decide (t.date.data.take 7 = k.data)) := by
  have hlen := isPeriodKey_length k hk
  constructor
  · unfold getTransactionsByPeriod getAllTransactions
    cases st.currentUser with
    | none => rfl
    | some u =>
        rw [jsTrim_periodKey k hk]
        refine List.filter_congr ?_
        intro t _
        have : (jsSubstring t.date 7 == k) = decide (t.date.data.take 7 = k.data) := by
          rcases k with ⟨kd⟩
          by_cases h : List.take 7 t.date.data = kd
          · simp [jsSubstring, h]
          · have hne : String.mk (List.take 7 t.date.data) ≠ String.mk kd := by
              simpa [String.ext_iff] using h
            simp [jsSubstring, h, beq_eq_false_iff_ne.mpr hne]
        simpa using this
  · unfold getTransactionsByPeriodJS getAllTransactions
    cases st.currentUser with
    | none => rfl
    | some u =>
        refine List.filter_congr ?_
        intro t _
        have hiff : (t.date.data.take 7 = k.data) ↔ k.data.isPrefixOf t.date.data = true := by
          rw [ List.isPrefixOf_iff_prefix, List.prefix_iff_eq_take, hlen]
          exact ⟨fun h => h.symm, fun h => h.symm⟩
        have hbool : (k.data.isPrefixOf t.date.data) =
            decide (List.take 7 t.date.data = k.data) := by
          by_cases h : List.take 7 t.date.data = k.data
          · simp [h, hiff.mp h]
          · have hfalse : ¬ (k.data.isPrefixOf t.date.data = true) :=
              fun hc => h (hiff.mpr hc)
            simp only [Bool.not_eq_true] at hfalse
            simp [h, hfalse]
        simpa [jsStartsWith] using hbool

/-- Witness for C4 at the concrete fixture: the key `"2024-01"` selects the
January transactions, in stored order, identically in both
implementations. -/
theorem c4_witness :
    getTransactionsByPeriod (stWith [txFood10, txInc300] []) "2024-01" =
      (getAllTransactions (stWith [txFood10, txInc300] [])).filter
        (fun t => decide (t.date.data.take 7 = "2024-01".data)) ∧
    getTransactionsByPeriodJS (stWith [txFood10, txInc300] []) "2024-01" =
      (getAllTransactions (stWith [txFood10, txInc300] [])).filter
        (fun t => decide (t.date.data.take 7 = "2024-01".data)) :=
  c4_period_filter_equiv (stWith [txFood10, txInc300] []) "2024-01" (by decide)

/-! ### C2 — summary correctness -/

theorem foldl_add_fin (av : Transaction → ℚ) :
    ∀ (l : List Transaction), (∀ t ∈ l, t.amount = JsNum.fin (av t)) →
      ∀ q : ℚ, l.foldl (fun acc t => acc.add t.amount) (JsNum.fin q) =
        JsNum.fin (q + (l.map av).sum) := by
  intro l
  induction l with
  | nil => intro _ q; simp
  | cons t rest ih =>
      intro h q
      have ht := h t (by simp)
      simp only [List.foldl_cons, ht, List.map_cons, List.sum_cons]
      rw [show (JsNum.fin q).add (JsNum.fin (av t)) = JsNum.fin (q + av t) from rfl]
      rw [ih (fun x hx => h x (by simp [hx])) (q + av t)]
      congr 1
      ring

theorem sumAmounts_fin (l : List Transaction) (av : Transaction → ℚ)
    (h : ∀ t ∈ l, t.amount = JsNum.fin (av t)) :
    sumAmounts l = JsNum.fin ((l.map av).sum) := by
  simpa using foldl_add_fin av l h 0

/-- Finite value held under an optional map entry (0 for an absent or
non-finite entry). -/
def finOr0 : Option JsNum → ℚ
  | some (JsNum.fin q) => q
  | _ => 0

theorem jsIndexOr0_eq_finOr0 (m : List (String × JsNum)) (k : String)
    (hm : ∀ k', List.lookup k' m = none ∨
      ∃ q, List.lookup k' m = some (JsNum.fin q)) :
    jsIndexOr0 m k = JsNum.fin (finOr0 (List.lookup k m)) := by
  rcases hm k with hnone | ⟨q, hq⟩
  · simp [jsIndexOr0, hnone, finOr0]
  · by_cases h : q = 0 <;> simp [jsIndexOr0, hq, finOr0, jsOr, JsNum.truthy, h]

theorem finMap_setAssoc (m : List (String × JsNum)) (k : String) (q : ℚ)
    (hm : ∀ k', List.lookup k' m = none ∨
      ∃ q', List.lookup k' m = some (JsNum.fin q')) :
    ∀ k', List.lookup k' (setAssoc m k (JsNum.fin q)) = none ∨
      ∃ q', List.lookup k' (setAssoc m k (JsNum.fin q)) = some (JsNum.fin q') := by
  intro k'
  by_cases hk : k' = k
  · subst hk
    exact Or.inr ⟨q, lookup_setAssoc_self m k' (JsNum.fin q)⟩
  · rw [lookup_setAssoc_ne m k k' (JsNum.fin q) hk]
    exact hm k'

theorem foldCategories_lookup (av : Transaction → ℚ) (cat : String) :
    ∀ (l : List Transaction) (m : List (String × JsNum)),
      (∀ t ∈ l, t.amount = JsNum.fin (av t)) →
      (∀ k, List.lookup k m = none ∨
        ∃ q, List.lookup k m = some (JsNum.fin q)) →
      ((l.filter (fun t => t.category == cat)) = [] →
        List.lookup cat (foldCategories l m) = List.lookup cat m) ∧
      ((l.filter (fun t => t.category == cat)) ≠ [] →
        List.lookup cat (foldCategories l m) =
          some (JsNum.fin (finOr0 (List.lookup cat m) +
            ((l.filter (fun t => t.category == cat)).map av).sum))) := by
  intro l
  induction l with
  | nil => intro m _ _; exact ⟨fun _ => rfl, fun h => absurd rfl h⟩
  | cons t rest ih =>
      intro m h hm
      have ht := h t (by simp)
      have hrest : ∀ x ∈ rest, x.amount = JsNum.fin (av x) :=
        fun x hx => h x (by simp [hx])
      have hstep : (jsIndexOr0 m t.category).add t.amount =
          JsNum.fin (finOr0 (List.lookup t.category m) + av t) := by
        rw [jsIndexOr0_eq_finOr0 m t.category hm, ht]
        rfl
      have hm' := finMap_setAssoc m t.category
        (finOr0 (List.lookup t.category m) + av t) hm
      by_cases hcat : t.category = cat
      · subst hcat
        have hfl : (t :: rest).filter (fun x => x.category == t.category) =
            t :: rest.filter (fun x => x.category == t.category) := by simp
        have hlook : List.lookup t.category
            (setAssoc m t.category
              (JsNum.fin (finOr0 (List.lookup t.category m) + av t))) =
            some (JsNum.fin (finOr0 (List.lookup t.category m) + av t)) :=
          lookup_setAssoc_self _ _ _
        have ihm := ih (setAssoc m t.category
          (JsNum.fin (finOr0 (List.lookup t.category m) + av t))) hrest
          (by rw [← hstep] at hm' ⊢; exact hm')
        constructor
        · intro hempty
          rw [hfl] at hempty
          exact absurd hempty (by simp)
        · intro _
          rw [hfl]
          simp only [foldCategories, hstep]
          by_cases hre : rest.filter (fun x => x.category == t.category) = []
          · rw [(ihm.1) hre, hlook]
            simp [hre]
          · rw [(ihm.2) hre, hlook]
            simp only [finOr0, List.map_cons, List.sum_cons]
            congr 2
            ring
      · have hfl : (t :: rest).filter (fun x => x.category == cat) =
            rest.filter (fun x => x.category == cat) := by
          simp [beq_eq_false_iff_ne.mpr hcat]
        have hlook : List.lookup cat
            (setAssoc m t.category
              (JsNum.fin (finOr0 (List.lookup t.category m) + av t))) =
            List.lookup cat m :=
          lookup_setAssoc_ne _ _ _ _ (Ne.symm hcat)
        have ihm := ih (setAssoc m t.category
          (JsNum.fin (finOr0 (List.lookup t.category m) + av t))) hrest
          (by rw [← hstep] at hm' ⊢; exact hm')
        constructor
        · intro hempty
          rw [hfl] at hempty
          simp only [foldCategories, hstep]
          rw [(ihm.1) hempty, hlook]
        · intro hne
          rw [hfl] at hne
          simp only [foldCategories, hstep]
          rw [(ihm.2) hne, hlook, hfl]

/-- C2: with an active account, the summary returned by
`getFinancialSummary` (TypeScript implementation) satisfies, for any
finite reading `av` of the matching transactions' amounts:
`totalIncome` is the stored fixed monthly income plus the sum of the
period's income-type amounts, `totalExpenses` is the sum of the period's
expense-type amounts, `balance` is exactly `totalIncome - totalExpenses`,
`transactionCount` is the number of matching transactions, and
`expensesByCategory` maps a category to the sum of the matching expense
amounts in that category exactly when some matching expense references it
(and has no entry otherwise). -/
theorem c2_summary_correct (dateVal : String → JsNum) (st : AppData)
    (p : String) (s : Summary) (av : Transaction → ℚ)
    (hs : getFinancialSummary dateVal st p = some s)
    (hav : ∀ t ∈ getTransactionsByPeriod st p, t.amount = JsNum.fin (av t)) :
    s.totalIncome = (getMonthlyIncome st p).add
      (JsNum.fin ((((getTransactionsByPeriod st p).filter
        (fun t => t.type == "income")).map av).sum)) ∧
    s.totalExpenses = JsNum.fin ((((getTransactionsByPeriod st p).filter
      (fun t => t.type == "expense")).map av).sum) ∧
    s.balance = s.totalIncome.sub s.totalExpenses ∧
    s.transactionCount = (getTransactionsByPeriod st p).length ∧
    (∀ cat : String,
      List.lookup cat s.expensesByCategory =
        if (((getTransactionsByPeriod st p).filter
            (fun t => t.type == "expense")).filter
            (fun t => t.category == cat)) = [] then none
        else some (JsNum.fin (((((getTransactionsByPeriod st p).filter
          (fun t => t.type == "expense")).filter
          (fun t => t.category == cat)).map av).sum))) := by
  have hinc : ∀ t ∈ (getTransactionsByPeriod st p).filter
      (fun t => t.type == "income"), t.amount = JsNum.fin (av t) :=
    fun t ht => hav t (List.mem_of_mem_filter ht)
  have hexp : ∀ t ∈ (getTransactionsByPeriod st p).filter
      (fun t => t.type == "expense"), t.amount = JsNum.fin (av t) :=
    fun t ht => hav t (List.mem_of_mem_filter ht)
  rcases hcu : st.currentUser with _ | u
  · rw [getFinancialSummary, hcu] at hs
    exact absurd hs (by simp)
  · rw [getFinancialSummary, hcu, Option.some.injEq] at hs
    subst hs
    refine ⟨?_, ?_, rfl, rfl, ?_⟩
    · rw [sumAmounts_fin _ av hinc]
    · rw [sumAmounts_fin _ av hexp]
    · intro cat
      have hfold := foldCategories_lookup av cat
        ((getTransactionsByPeriod st p).filter (fun t => t.type == "expense"))
        [] hexp (fun k => Or.inl rfl)
      by_cases hempty : ((getTransactionsByPeriod st p).filter
          (fun t => t.type == "expense")).filter (fun t => t.category == cat) = []
      · rw [if_pos hempty]
        exact (hfold.1) hempty
      · rw [if_neg hempty, (hfold.2) hempty]
        simp [finOr0]

/-- Witness for C2 at the spec's category-fold example: expenses Food 10,
Food 5, Fuel 20 (plus an income of 300 and fixed income 5000) in
2024-01. -/
theorem c2_summary_witness :
    ∃ s, getFinancialSummary (fun _ => JsNum.fin 0)
        (stWith [txFood10, txFood5, txFuel20, txInc300]
          [("2024-01", JsNum.fin 5000)]) "2024-01" = some s ∧
      s.totalIncome = JsNum.fin 5300 ∧
      s.totalExpenses = JsNum.fin 35 ∧
      s.balance = s.totalIncome.sub s.totalExpenses ∧
      s.transactionCount = 4 ∧
      List.lookup "Food" s.expensesByCategory = some (JsNum.fin 15) ∧
      List.lookup "Fuel" s.expensesByCategory = some (JsNum.fin 20) ∧
      List.lookup "Outros" s.expensesByCategory = none := by
  have hav : ∀ t ∈ getTransactionsByPeriod
      (stWith [txFood10, txFood5, txFuel20, txInc300]
        [("2024-01", JsNum.fin 5000)]) "2024-01",
      t.amount = JsNum.fin (finOr0 (some t.amount)) := by
    intro t ht
    fin_cases ht <;> rfl
  have hex : ∃ s, getFinancialSummary (fun _ => JsNum.fin 0)
      (stWith [txFood10, txFood5, txFuel20, txInc300]
        [("2024-01", JsNum.fin 5000)]) "2024-01" = some s := by
    simp only [getFinancialSummary, currentUser_stWith]
    exact ⟨_, rfl⟩
  obtain ⟨s, hs⟩ := hex
  have h := c2_summary_correct (fun _ => JsNum.fin 0)
    (stWith [txFood10, txFood5, txFuel20, txInc300]
      [("2024-01", JsNum.fin 5000)]) "2024-01" s
    (fun t => finOr0 (some t.amount)) hs hav
  have htxs : getTransactionsByPeriod
      (stWith [txFood10, txFood5, txFuel20, txInc300]
        [("2024-01", JsNum.fin 5000)]) "2024-01" =
      [txFood10, txFood5, txFuel20, txInc300] := by
    simp only [getTransactionsByPeriod, currentUser_stWith,
      jsTrim_periodKey "2024-01" (by decide), mkUserW]
    simp [List.filter, jsSubstring, beq_iff_eq, String.ext_iff,
      txFood10, txFood5, txFuel20, txInc300]
  rw [htxs] at h
  refine ⟨s, hs, ?_, ?_, h.2.2.1, ?_, ?_, ?_, ?_⟩
  · rw [h.1]
    simp [getMonthlyIncome, currentUser_stWith, mkUserW, jsIndexOr0,
      List.lookup, jsOr, JsNum.truthy, JsNum.add, List.filter_cons,
      txFood10, txFood5, txFuel20, txInc300, finOr0]
    all_goals norm_num
  · rw [h.2.1]
    simp [List.filter_cons, txFood10, txFood5, txFuel20, txInc300, finOr0]
    all_goals norm_num
  · rw [h.2.2.2.1]
    norm_num
  · rw [h.2.2.2.2 "Food"]
    simp [List.filter_cons, txFood10, txFood5, txFuel20, txInc300, finOr0]
    all_goals norm_num
  · rw [h.2.2.2.2 "Fuel"]
    simp [List.filter_cons, txFood10, txFood5, txFuel20, txInc300, finOr0]
  · rw [h.2.2.2.2 "Outros"]
    simp [List.filter_cons, txFood10, txFood5, txFuel20, txInc300, finOr0]

/-! ### C8 — ordering of the summary's transaction list -/

/-- Numeric reading of an ISO `YYYY-MM-DD` date string: its digits
concatenated into a natural number (`20240105` for `"2024-01-05"`), which
is monotone in calendar order for ISO dates. -/
def isoDigits (s : String) : ℕ :=
  (s.data.filter Char.isDigit).foldl (fun n c => 10 * n + (c.toNat - 48)) 0

/-- C8 counterexample: the JavaScript implementation of
`getFinancialSummary` returns the period-filtered transactions in raw
stored order without sorting — here the stored order is ascending by date
(`2024-01-10` before `2024-01-20`, two distinct dates), so the returned
list is not sorted by date descending. -/
theorem c8_counterexample :
    (getFinancialSummaryJS (stWith [txFood10, txInc300] []) "2024-01").map
        (fun s => s.transactions.map (fun t => t.date)) =
      some ["2024-01-10", "2024-01-20"] ∧
    isoDigits "2024-01-10" < isoDigits "2024-01-20" := by
  constructor
  · simp [getFinancialSummaryJS, getTransactionsByPeriodJS, currentUser_stWith,
      mkUserW, jsStartsWith, List.filter_cons, List.isPrefixOf, txFood10, txInc300]
  · decide

theorem jsNum_fin_sub (x y : ℚ) :
    (JsNum.fin x).sub (JsNum.fin y) = JsNum.fin (x - y) := by
  simp [JsNum.sub, JsNum.neg, JsNum.add, sub_eq_add_neg]

theorem jsStableSort_desc {α : Type} (v : α → ℚ) (l : List α) :
    (jsStableSort (fun a b => (JsNum.fin (v b)).sub (JsNum.fin (v a))) l).Pairwise
      (fun a b => v b ≤ v a) ∧
    (∀ q : ℚ, (jsStableSort (fun a b => (JsNum.fin (v b)).sub (JsNum.fin (v a))) l).filter
        (fun x => decide (v x = q)) = l.filter (fun x => decide (v x = q))) ∧
    (jsStableSort (fun a b => (JsNum.fin (v b)).sub (JsNum.fin (v a))) l).Perm l := by
  have hr : ∀ a b : α,
      ((((JsNum.fin (v b)).sub (JsNum.fin (v a))).gt (JsNum.fin 0)) = false) ↔
        v b ≤ v a := by
    intro a b
    rw [jsNum_fin_sub]
    simp [JsNum.gt, decide_eq_false_iff_not, not_lt, sub_nonpos]
  haveI htot : IsTotal α
      (fun a b => (((JsNum.fin (v b)).sub (JsNum.fin (v a))).gt (JsNum.fin 0)) = false) := by
    constructor
    intro a b
    rcases le_total (v b) (v a) with h | h
    · exact Or.inl ((hr a b).mpr h)
    · exact Or.inr ((hr b a).mpr h)
  haveI htr : IsTrans α
      (fun a b => (((JsNum.fin (v b)).sub (JsNum.fin (v a))).gt (JsNum.fin 0)) = false) := by
    constructor
    intro a b c hab hbc
    exact (hr a c).mpr (le_trans ((hr b c).mp hbc) ((hr a b).mp hab))
  refine ⟨?_, ?_, ?_⟩
  · have hsorted := List.sorted_insertionSort
      (fun a b => (((JsNum.fin (v b)).sub (JsNum.fin (v a))).gt (JsNum.fin 0)) = false) l
    exact List.Pairwise.imp (fun hab => (hr _ _).mp hab) hsorted
  · intro q
    have hpair : (l.filter (fun x => decide (v x = q))).Pairwise
        (fun a b => (((JsNum.fin (v b)).sub (JsNum.fin (v a))).gt (JsNum.fin 0)) = false) := by
      refine List.pairwise_of_forall_mem_list ?_
      intro a ha b hb
      have ha' : v a = q := of_decide_eq_true (List.mem_filter.mp ha).2
      have hb' : v b = q := of_decide_eq_true (List.mem_filter.mp hb).2
      exact (hr a b).mpr (by rw [ha', hb'])
    have hsub : List.Sublist (l.filter (fun x => decide (v x = q)))
        (List.insertionSort
          (fun a b => (((JsNum.fin (v b)).sub (JsNum.fin (v a))).gt (JsNum.fin 0)) = false) l) :=
      List.sublist_insertionSort hpair (List.filter_sublist l)
    have hself : (l.filter (fun x => decide (v x = q))).filter
        (fun x => decide (v x = q)) = l.filter (fun x => decide (v x = q)) := by
      refine List.filter_eq_self.mpr ?_
      intro a ha
      exact (List.mem_filter.mp ha).2
    have hsub2 : List.Sublist (l.filter (fun x => decide (v x = q)))
        ((List.insertionSort
          (fun a b => (((JsNum.fin (v b)).sub (JsNum.fin (v a))).gt (JsNum.fin 0)) = false) l).filter
          (fun x => decide (v x = q))) := by
      have := List.Sublist.filter (fun x => decide (v x = q)) hsub
      rwa [hself] at this
    have hlen : ((List.insertionSort
        (fun a b => (((JsNum.fin (v b)).sub (JsNum.fin (v a))).gt (JsNum.fin 0)) = false) l).filter
        (fun x => decide (v x = q))).length = (l.filter (fun x => decide (v x = q))).length :=
      ((List.perm_insertionSort _ l).filter _).length_eq
    exact (hsub2.eq_of_length hlen.symm).symm
  · exact List.perm_insertionSort _ l

/-- C8 corrected for the TypeScript implementation: for any finite date
valuation `dv` (modelling `new Date(s).getTime()` on parseable dates), the
transaction list in the summary returned by `getFinancialSummary` is
sorted by date value descending, equal-valued dates keep their original
(stored-filter) relative order, and the list is a permutation of the
period's matching transactions. -/
theorem c8_amended_sorted_stable (dv : String → ℚ) (st : AppData) (p : String)
    (s : Summary)
    (hs : getFinancialSummary (fun d => JsNum.fin (dv d)) st p = some s) :
    s.transactions.Pairwise (fun a b => dv b.date ≤ dv a.date) ∧
    (∀ q : ℚ, s.transactions.filter (fun t => decide (dv t.date = q)) =
      (getTransactionsByPeriod st p).filter (fun t => decide (dv t.date = q))) ∧
    s.transactions.Perm (getTransactionsByPeriod st p) := by
  rcases hcu : st.currentUser with _ | u
  · rw [getFinancialSummary, hcu] at hs
    exact absurd hs (by simp)
  · rw [getFinancialSummary, hcu, Option.some.injEq] at hs
    subst hs
    exact jsStableSort_desc (fun t => dv t.date) (getTransactionsByPeriod st p)

/-- Witness for the amended C8 at a concrete state: three dated
transactions stored in mixed order. -/
theorem c8_amended_witness :
    ∃ s, getFinancialSummary (fun d => JsNum.fin ((isoDigits d : ℚ)))
        (stWith [txFood10, txInc300, txFood5] []) "2024-01" = some s ∧
      s.transactions.Pairwise
        (fun a b => ((isoDigits b.date : ℚ)) ≤ ((isoDigits a.date : ℚ))) ∧
      s.transactions.Perm
        (getTransactionsByPeriod (stWith [txFood10, txInc300, txFood5] []) "2024-01") := by
  have hex : ∃ s, getFinancialSummary (fun d => JsNum.fin ((isoDigits d : ℚ)))
      (stWith [txFood10, txInc300, txFood5] []) "2024-01" = some s := by
    simp only [getFinancialSummary, currentUser_stWith]
    exact ⟨_, rfl⟩
  obtain ⟨s, hs⟩ := hex
  have h := c8_amended_sorted_stable (fun d => ((isoDigits d : ℚ)))
    (stWith [txFood10, txInc300, txFood5] []) "2024-01" s hs
  exact ⟨s, hs, h.1, h.2.2⟩
